import Mathlib

/-!
Verification of the pong game server (`src/unnamed/part_000`, a Node.js
WebSocket server) against its natural-language specification.

The server code is shallowly embedded:
* JS numbers used by the physics are modelled as `ℝ` (the trigonometric
  serve/bounce code is transcendental); JS numbers flowing through the
  protocol (where `NaN`/`±Infinity` matter) are modelled by `JSNum`,
  rationals extended with the three special IEEE values.
* per-room game state is the structure `Room`; the whole server state
  (session registry, room registry, matchmaking queue, interval handles)
  is the structure `World`.
* functions keep the source names: `serveBall`, `paddleBounce`, `onScore`,
  `endGame`, `makeRoom`, `startRematch`, `requestRematch`, `leaveRoom`,
  `destroyRoom`, `tryMatch`, and the `ws.on('message')` dispatcher
  (`handleMessage`).  Emitted frames are returned as explicit send lists.
* `Math.random()` draws and `Date.now()` readings are passed as explicit
  parameters, and the coercion `Number()` applied to non-numeric JSON
  values is an abstract parameter (`oracle`).
-/

noncomputable section

namespace Pong

/-! ### World constants (lines 16-28 of the source) -/

def W : ℝ := 900
def H : ℝ := 1600
def PADDING : ℝ := 70
def PADDLE_WIDTH_FRAC : ℝ := 0.28
def PADDLE_HEIGHT_FRAC : ℝ := 0.02
def BALL_RADIUS_FRAC : ℝ := 0.018
def INIT_BALL_SPEED : ℝ := 780
def MAX_BALL_SPEED : ℝ := 1200
def SPEED_UP : ℝ := 1.03
def MAX_BOUNCE_ANGLE : ℝ := 1.05
def HEARTS_START : ℤ := 3

/-- Derived paddle width `pw = PADDLE_WIDTH_FRAC * W` (room params, line 65). -/
def pw : ℝ := PADDLE_WIDTH_FRAC * W

/-- Derived paddle height `ph = PADDLE_HEIGHT_FRAC * H` (line 66). -/
def ph : ℝ := PADDLE_HEIGHT_FRAC * H

/-! ### Basic data -/

inductive Side where
  | top
  | bottom
deriving DecidableEq

/-- `opponentSide` (lines 57-59). -/
def opponentSide : Side → Side
  | .top => .bottom
  | .bottom => .top

inductive Phase where
  | countdown
  | playing
  | between
  | gameover
deriving DecidableEq

/-- `clamp(v, min, max) = Math.max(min, Math.min(max, v))` (lines 44-46),
for the real-valued physics uses where no NaN can occur. -/
def clamp (v lo hi : ℝ) : ℝ := max lo (min hi v)

/-- A JS number as it can appear on the protocol path: a finite value,
`Infinity`, `-Infinity` or `NaN`. -/
inductive JSNum where
  | num (q : ℚ)
  | posInf
  | negInf
  | nan
deriving DecidableEq

/-- `Math.min` on JS numbers: `NaN` propagates, `-Infinity` wins. -/
def jsMin : JSNum → JSNum → JSNum
  | .nan, _ => .nan
  | _, .nan => .nan
  | .negInf, _ => .negInf
  | _, .negInf => .negInf
  | .posInf, b => b
  | a, .posInf => a
  | .num p, .num q => .num (min p q)

/-- `Math.max` on JS numbers: `NaN` propagates, `Infinity` wins. -/
def jsMax : JSNum → JSNum → JSNum
  | .nan, _ => .nan
  | _, .nan => .nan
  | .posInf, _ => .posInf
  | _, .posInf => .posInf
  | .negInf, b => b
  | a, .negInf => a
  | .num p, .num q => .num (max p q)

/-- `clamp(v, min, max)` (lines 44-46) on protocol-path JS numbers. -/
def clampN (v lo hi : JSNum) : JSNum := jsMax lo (jsMin hi v)

/-! ### Room state -/

structure Ball where
  x : ℝ
  y : ℝ
  vx : ℝ
  vy : ℝ
  speed : ℝ

/-- One entry of `room.players` (lines 90-91): the session (socket)
reference, the id and name snapshots, and the hearts counter. -/
structure Slot where
  ws : Option ℕ
  pid : ℕ
  name : String
  hearts : ℤ
deriving DecidableEq

/-- `room.paddles` (line 94).  The stored values come from the `paddle`
message handler and are JS numbers. -/
structure Paddles where
  topX : JSNum
  bottomX : JSNum
deriving DecidableEq

/-- A room (lines 87-103).  `params` is not stored: every field of it is a
fixed constant (`W`, `H`, `pw`, `ph`, ...).  `loops` handles live in the
world-level `activeLoops` set.  Room ids (uuids) are modelled as `ℕ`. -/
structure Room where
  rid : ℕ
  top : Slot
  bottom : Slot
  paddles : Paddles
  ball : Ball
  phase : Phase
  serveToward : Side
  nextPhaseAt : ℤ
  lastTickAt : ℤ
  rvTop : Bool
  rvBottom : Bool

/-- `room.players[side]`. -/
def Room.slot (r : Room) : Side → Slot
  | .top => r.top
  | .bottom => r.bottom

/-- Write `room.players[side]`. -/
def Room.setSlot (r : Room) : Side → Slot → Room
  | .top, sl => { r with top := sl }
  | .bottom, sl => { r with bottom := sl }

/-- `room.rematchVotes[side]`. -/
def Room.vote (r : Room) : Side → Bool
  | .top => r.rvTop
  | .bottom => r.rvBottom

/-- Write `room.rematchVotes[side]`. -/
def Room.setVote (r : Room) : Side → Bool → Room
  | .top, b => { r with rvTop := b }
  | .bottom, b => { r with rvBottom := b }

/-! ### Outbound messages (§6 of the spec; emitted via `safeSend`) -/

inductive OutMsg where
  | finding (queueSize : ℕ)
  | queueCancelled
  | matchFound (roomId : ℕ) (topName bottomName : String) (you : Side) (countdown : ℕ)
  | score (heartsTop heartsBottom : ℤ) (lastMiss : Side)
  | gameOver (winner : Option Side) (reason : String) (heartsTop heartsBottom : ℤ)
  | rematchOffered
  | rematchStart (countdown : ℕ)
  | errorMsg (message : String)
deriving DecidableEq

/-! ### Room-level game operations -/

/-- `serveBall(room)` (lines 177-187).  The uniform draw
`Math.random() * 0.8 - 0.4` is the parameter `angle`.  Note the source
really sets `vy = dir * Math.cos(angle)` (line 186) — without the factor
`s` that line 185 applies to `vx`. -/
def serveBall (angle : ℝ) (room : Room) : Room :=
  let dir : ℝ := if room.serveToward = Side.top then -1 else 1
  let s := INIT_BALL_SPEED
  { room with
    ball := { x := W / 2, y := H / 2,
              speed := s,
              vx := s * Real.sin angle,
              vy := dir * Real.cos angle } }

/-- The serve transition inside `tick` (lines 163-169): when the pause
timer of a `countdown`/`between` phase has expired, serve and enter
`playing`. -/
def serveStep (angle : ℝ) (room : Room) : Room :=
  { serveBall angle room with phase := Phase.playing }

/-- `paddleBounce(room, side, paddleCenterX)` (lines 243-258). -/
def paddleBounce (room : Room) (side : Side) (paddleCenterX : ℝ) : Room :=
  let b := room.ball
  let rel := clamp ((b.x - paddleCenterX) / (pw / 2)) (-1) 1
  let newSpeed := clamp (b.speed * SPEED_UP) 100 MAX_BALL_SPEED
  let angle := rel * MAX_BOUNCE_ANGLE
  let vy := if side = Side.top
    then |newSpeed * Real.cos angle|
    else -|newSpeed * Real.cos angle|
  { room with
    ball := { b with vx := newSpeed * Real.sin angle, vy := vy, speed := newSpeed } }

/-- `endGame(room, winnerSide, reason)` (lines 301-317): enter `gameover`,
zero the velocity, broadcast the `gameOver` event. -/
def endGame (room : Room) (winnerSide : Option Side) (reason : String) :
    Room × List OutMsg :=
  let room := { room with phase := Phase.gameover,
                          ball := { room.ball with vx := 0, vy := 0 } }
  (room, [OutMsg.gameOver winnerSide reason room.top.hearts room.bottom.hearts])

/-- `onScore(room, loserSide)` (lines 260-299).  `now` is the `nowMs()`
reading.  The returned list holds the events the room broadcasts, in
emission order. -/
def onScore (now : ℤ) (room : Room) (loserSide : Side) : Room × List OutMsg :=
  if room.phase ≠ Phase.playing then (room, []) else
  let room := { room with phase := Phase.between }
  let winnerSide := opponentSide loserSide
  let room := room.setSlot loserSide
    { room.slot loserSide with hearts := max 0 ((room.slot loserSide).hearts - 1) }
  let scoreEv := OutMsg.score room.top.hearts room.bottom.hearts loserSide
  let topHearts := room.top.hearts
  let bottomHearts := room.bottom.hearts
  if topHearts ≤ 0 ∧ bottomHearts ≤ 0 then
    -- Tie (edge case)
    let res := endGame room none "tie"
    (res.1, scoreEv :: res.2)
  else if (room.slot loserSide).hearts ≤ 0 then
    let res := endGame room (some winnerSide) "hearts"
    (res.1, scoreEv :: res.2)
  else
    ({ room with
        serveToward := loserSide,
        nextPhaseAt := now + 1500,
        ball := { x := W / 2, y := H / 2, vx := 0, vy := 0, speed := INIT_BALL_SPEED } },
      [scoreEv])

/-- The room value built by `makeRoom` (lines 87-103) once the side
assignment has put session `topWs` on top and `bottomWs` on bottom:
hearts at `HEARTS_START`, paddles centered, ball frozen at the center,
phase `countdown`, `nextPhaseAt = now + 3000`, votes cleared.
`serveRand` is the draw `Math.random() < 0.5` for `serveToward`. -/
def newRoomValue (id : ℕ) (now : ℤ) (topWs bottomWs : ℕ)
    (topName bottomName : String) (serveRand : Bool) : Room :=
  { rid := id,
    top := { ws := some topWs, pid := topWs, name := topName, hearts := HEARTS_START },
    bottom := { ws := some bottomWs, pid := bottomWs, name := bottomName, hearts := HEARTS_START },
    paddles := { topX := JSNum.num (1/2), bottomX := JSNum.num (1/2) },
    ball := { x := W / 2, y := H / 2, vx := 0, vy := 0, speed := INIT_BALL_SPEED },
    phase := Phase.countdown,
    serveToward := if serveRand then Side.top else Side.bottom,
    nextPhaseAt := now + 3000,
    lastTickAt := now,
    rvTop := false,
    rvBottom := false }

/-! ### Server (world) state

`sessions` models the set of `ws` socket objects with the per-session
fields the server hangs on them (`id`, `name`, `roomId`, `side`) and the
socket's `readyState === OPEN` flag.  `rooms` is the `rooms` registry,
`queue` the `waitingQueue` (session ids), `activeLoops` the set of rooms
whose `setInterval` loops are running, and `nextRoomId` the uuid
generator. -/

structure Sess where
  sid : ℕ
  name : String
  roomId : Option ℕ
  side : Option Side
  readyOpen : Bool
deriving DecidableEq

/-- A delivered frame: recipient session id and payload. -/
abbrev Send := ℕ × OutMsg

structure World where
  sessions : List Sess
  rooms : List Room
  queue : List ℕ
  activeLoops : List ℕ
  nextRoomId : ℕ

def lookupSess (w : World) (sid : ℕ) : Option Sess :=
  w.sessions.find? (fun s => s.sid == sid)

def updateSess (w : World) (sid : ℕ) (f : Sess → Sess) : World :=
  { w with sessions := w.sessions.map (fun s => if s.sid == sid then f s else s) }

def lookupRoom (w : World) (rid : ℕ) : Option Room :=
  w.rooms.find? (fun r => r.rid == rid)

def updateRoom (w : World) (rid : ℕ) (f : Room → Room) : World :=
  { w with rooms := w.rooms.map (fun r => if r.rid == rid then f r else r) }

/-- `ws.readyState === WebSocket.OPEN` for the socket of session `sid`. -/
def isOpen (w : World) (sid : ℕ) : Bool :=
  match lookupSess w sid with
  | some s => s.readyOpen
  | none => false

/-- `safeSend(ws, msg)` (lines 34-38): deliver only to an open socket. -/
def safeSend (w : World) (sid : ℕ) (msg : OutMsg) : List Send :=
  if isOpen w sid then [(sid, msg)] else []

/-- One side of `broadcastEvent` (lines 353-360): `player.ws` must be
present and open. -/
def sendToSlot (w : World) (slot : Slot) (msg : OutMsg) : List Send :=
  match slot.ws with
  | some sid => safeSend w sid msg
  | none => []

/-- `broadcastEvent(room, event)` (lines 353-360): try `top` then
`bottom`. -/
def broadcastEvent (w : World) (room : Room) (msg : OutMsg) : List Send :=
  sendToSlot w room.top msg ++ sendToSlot w room.bottom msg

/-- `makeRoom(a, b, swapSides)` (lines 61-134).  `sideRand` is the draw
`Math.random() < 0.5` of line 76 (only used when `swapSides` is false),
`serveRand` the draw for `serveToward`.  Returns the new world, the
emitted `matchFound` frames, and the fresh room id. -/
def makeRoom (w : World) (now : ℤ) (sideRand serveRand : Bool)
    (aSid bSid : ℕ) (swapSides : Bool) : World × List Send × ℕ :=
  let id := w.nextRoomId
  -- let bottom = a, top = b; if (swapSides) { bottom = b; top = a }
  -- else if (Math.random() < 0.5) { bottom = b; top = a }
  let p := if swapSides then (aSid, bSid) else
           if sideRand then (aSid, bSid) else (bSid, aSid)
  let topSid := p.1
  let bottomSid := p.2
  let w := updateSess w topSid (fun s => { s with side := some Side.top, roomId := some id })
  let w := updateSess w bottomSid (fun s => { s with side := some Side.bottom, roomId := some id })
  let topName := match lookupSess w topSid with | some s => s.name | none => "Player"
  let bottomName := match lookupSess w bottomSid with | some s => s.name | none => "Player"
  let room := newRoomValue id now topSid bottomSid topName bottomName serveRand
  let w := { w with rooms := room :: w.rooms, nextRoomId := w.nextRoomId + 1 }
  let sends := safeSend w topSid (OutMsg.matchFound id topName bottomName Side.top 3)
            ++ safeSend w bottomSid (OutMsg.matchFound id topName bottomName Side.bottom 3)
  -- startLoops(room)
  let w := { w with activeLoops := id :: w.activeLoops }
  (w, sends, id)

/-- `destroyRoom(roomId)` (lines 148-153): if registered, stop both loops
and drop the room from the registry. -/
def destroyRoom (w : World) (rid : ℕ) : World :=
  match lookupRoom w rid with
  | none => w
  | some _ =>
      { w with activeLoops := w.activeLoops.filter (fun i => i != rid),
               rooms := w.rooms.filter (fun r => r.rid != rid) }

/-- `leaveRoom(ws)` (lines 406-442). -/
def leaveRoom (w : World) (sid : ℕ) : World × List Send :=
  match lookupSess w sid with
  | none => (w, [])        -- totality guard: the source always has the ws object
  | some s =>
    match s.roomId with
    | none => (w, [])      -- if (!ws.roomId) return
    | some rid =>
      match lookupRoom w rid with
      | none => (updateSess w sid (fun s => { s with roomId := none }), [])
      | some room =>
        match s.side with
        | none => (w, [])  -- unreachable: roomId and side are set together;
                           -- the source would throw at room.players[side]
        | some side =>
          let otherSide := opponentSide side
          let opp := room.slot otherSide
          let oppOpen : Bool := match opp.ws with
            | some oid => isOpen w oid
            | none => false
          let sends :=
            if room.phase ≠ Phase.gameover ∧ oppOpen then
              broadcastEvent w room
                (OutMsg.gameOver (some otherSide) "disconnect"
                  room.top.hearts room.bottom.hearts)
            else []
          let room := room.setSlot side { room.slot side with ws := none }
          let w := updateRoom w rid (fun _ => room)
          let w := if room.top.ws = none ∧ room.bottom.ws = none
                   then destroyRoom w rid else w
          let w := updateSess w sid (fun s => { s with roomId := none, side := none })
          (w, sends)

/-- `startRematch(oldRoom)` (lines 379-404).  The source passes
`(oldRoom.players.top.ws, oldRoom.players.bottom.ws)` into
`makeRoom(a, b, true)`; `serveRand` is the serve-direction draw of the
new room.  A null slot reference would throw in the source and cannot
occur in the modelled flow, so it is a no-op here. -/
def startRematch (w : World) (oldRoom : Room) (now : ℤ) (serveRand : Bool) :
    World × List Send :=
  match oldRoom.top.ws, oldRoom.bottom.ws with
  | some aSid, some bSid =>
    -- Reset client flags
    let w := updateRoom w oldRoom.rid (fun r => { r with rvTop := false, rvBottom := false })
    -- Create a new room with swapSides = true
    let res := makeRoom w now false serveRand aSid bSid true
    let w := res.1
    let newId := res.2.2
    -- Explicit resets performed by the source after makeRoom
    let w := updateRoom w newId (fun r =>
      ((r.setSlot Side.top { r.top with hearts := HEARTS_START }).setSlot Side.bottom
        { r.bottom with hearts := HEARTS_START }))
    let w := updateRoom w newId (fun r =>
      { r with phase := Phase.countdown, nextPhaseAt := now + 3000 })
    let sends2 := match lookupRoom w newId with
      | some nr => broadcastEvent w nr (OutMsg.rematchStart 3)
      | none => []
    let w := destroyRoom w oldRoom.rid
    (w, res.2.1 ++ sends2)
  | _, _ => (w, [])

/-- `requestRematch(room, side)` (lines 362-377). -/
def requestRematch (w : World) (rid : ℕ) (side : Side) (now : ℤ) (serveRand : Bool) :
    World × List Send :=
  match lookupRoom w rid with
  | none => (w, [])
  | some room =>
    if room.phase ≠ Phase.gameover then (w, []) else
    let room := room.setVote side true
    let w := updateRoom w rid (fun _ => room)
    let opp := room.slot (opponentSide side)
    let sends1 := match opp.ws with
      | some oid => safeSend w oid OutMsg.rematchOffered
      | none => []
    if room.rvTop ∧ room.rvBottom then
      let res := startRematch w room now serveRand
      (res.1, sends1 ++ res.2)
    else (w, sends1)

/-! ### Parsed JSON values and the message handler -/

/-- A JS value produced by `JSON.parse`.  Array elements are never
inspected by the handler, and of an object only the properties `type`,
`name` and `x` are ever read (extra fields are ignored per the spec), so
`jobj` carries exactly those three (absent property = `none`). -/
inductive JVal where
  | jnull
  | jbool (b : Bool)
  | jnum (v : JSNum)
  | jstr (s : String)
  | jarr
  | jobj (tyF nameF xF : Option JVal)

/-- JS truthiness test used by `!msg` (line 483). -/
def isFalsy : JVal → Bool
  | .jnull => true
  | .jbool b => !b
  | .jnum (.num q) => q == 0
  | .jnum .nan => true
  | .jnum _ => false
  | .jstr s => s == ""
  | .jarr => false
  | .jobj _ _ _ => false

/-- `typeof msg === 'object'` (line 483): true for null, arrays and
objects. -/
def typeofObject : JVal → Bool
  | .jnull => true
  | .jarr => true
  | .jobj _ _ _ => true
  | _ => false

/-- The value `switch (msg.type)` dispatches on: `some t` when `msg.type`
is the string `t`; any other value (including `undefined`, e.g. for an
array) falls through to the `default` branch. -/
def dispatchKey : JVal → Option String
  | .jobj (some (.jstr t)) _ _ => some t
  | _ => none

/-- `msg.name`. -/
def msgName : JVal → Option JVal
  | .jobj _ n _ => n
  | _ => none

/-- `msg.x`. -/
def msgX : JVal → Option JVal
  | .jobj _ _ x => x
  | _ => none

/-- Strip control characters (code points 0x00-0x1F and 0x7F), the
`replace` of line 52. -/
def stripControl (s : String) : String :=
  String.mk (s.data.filter (fun c => !(c.toNat ≤ 31 || c.toNat == 127)))

/-- `sanitizeName(raw)` (lines 48-55).  `raw` is `msg.name`; a missing or
non-string (or falsy, i.e. empty) value yields `"Player"`.  `slice(0,16)`
truncates UTF-16 code units; we truncate characters, which agrees on all
names without surrogate pairs. -/
def sanitizeName (raw : Option JVal) : String :=
  match raw with
  | some (JVal.jstr s) =>
    if s == "" then "Player"
    else
      let name := stripControl (String.mk ((s.trim).data.take 16))
      if name == "" then "Player" else name
  | _ => "Player"

/-- `Number(msg.x)` (line 507).  The coercions with simple IEEE semantics
are fixed; coercion of strings, arrays and objects is the abstract
parameter `oracle` (no claim depends on it). -/
def jsNumber (oracle : JVal → JSNum) : Option JVal → JSNum
  | none => JSNum.nan
  | some JVal.jnull => JSNum.num 0
  | some (JVal.jbool b) => JSNum.num (if b then 1 else 0)
  | some (JVal.jnum v) => v
  | some v => oracle v

/-- An inbound socket frame: either `JSON.parse` throws (`invalid`), or it
yields the value carried by `parsed`. -/
inductive Frame where
  | invalid
  | parsed (v : JVal)

/-- The validity filter of `tryMatch` (lines 446-451): drop entries whose
socket is gone, not open, or already in a room. -/
def sessValidForQueue (w : World) (sid : ℕ) : Bool :=
  match lookupSess w sid with
  | some s => s.readyOpen && s.roomId == none
  | none => false

/-- The pairing loop of `tryMatch` (lines 453-459): repeatedly shift the
two oldest entries; re-check `readyState`; pair via `makeRoom`.  `bits k`
supplies the two `Math.random()` draws of the `k`-th `makeRoom` call. -/
def pairAll (now : ℤ) (bits : ℕ → Bool × Bool) : ℕ → World → List ℕ →
    World × List Send
  | k, w, a :: b :: rest =>
    if isOpen w a && isOpen w b then
      let res := makeRoom w now (bits k).1 (bits k).2 a b false
      let rec2 := pairAll now bits (k + 1) res.1 rest
      (rec2.1, res.2.1 ++ rec2.2)
    else
      pairAll now bits (k + 1) w rest
  | _, w, q => ({ w with queue := q }, [])

/-- `tryMatch()` (lines 444-460). -/
def tryMatch (w : World) (now : ℤ) (bits : ℕ → Bool × Bool) : World × List Send :=
  let q := w.queue.filter (fun sid => sessValidForQueue w sid)
  pairAll now bits 0 { w with queue := q } q

/-- The `ws.on('message')` handler (lines 476-526).  `now` and the random
draws parametrise the `joinQueue → tryMatch` and rematch paths. -/
def handleMessage (oracle : JVal → JSNum) (now : ℤ) (serveRand : Bool)
    (bits : ℕ → Bool × Bool) (w : World) (sid : ℕ) (f : Frame) :
    World × List Send :=
  match f with
  | .invalid => (w, [])                  -- JSON.parse threw: silently return
  | .parsed msg =>
    if isFalsy msg || !typeofObject msg then (w, []) else
    match lookupSess w sid with
    | none => (w, [])                    -- totality guard: ws always exists
    | some s =>
      if dispatchKey msg = some "joinQueue" then
        let name := sanitizeName (msgName msg)
        let w := updateSess w sid (fun s => { s with name := name })
        if s.roomId = none ∧ ¬ w.queue.contains sid then
          let w := { w with queue := w.queue ++ [sid] }
          let sends := safeSend w sid (OutMsg.finding w.queue.length)
          let res := tryMatch w now bits
          (res.1, sends ++ res.2)
        else (w, [])
      else if dispatchKey msg = some "cancelQueue" then
        let w := { w with queue := w.queue.erase sid }
        (w, safeSend w sid OutMsg.queueCancelled)
      else if dispatchKey msg = some "paddle" then
        if s.roomId = none ∨ (s.side ≠ some Side.top ∧ s.side ≠ some Side.bottom) then
          (w, [])
        else
          match s.roomId with
          | none => (w, [])
          | some rid =>
            match lookupRoom w rid with
            | none => (w, [])
            | some _ =>
              let x := clampN (jsNumber oracle (msgX msg)) (JSNum.num 0) (JSNum.num 1)
              if s.side = some Side.top then
                (updateRoom w rid (fun r => { r with paddles := { r.paddles with topX := x } }), [])
              else
                (updateRoom w rid (fun r => { r with paddles := { r.paddles with bottomX := x } }), [])
      else if dispatchKey msg = some "rematchRequest" then
        if s.roomId = none ∨ s.side = none then (w, [])
        else
          match s.roomId, s.side with
          | some rid, some side =>
            match lookupRoom w rid with
            | none => (w, [])
            | some _ => requestRematch w rid side now serveRand
          | _, _ => (w, [])
      else if dispatchKey msg = some "leaveRoom" then
        leaveRoom w sid
      else
        (w, safeSend w sid (OutMsg.errorMsg "Unknown message type"))

/-- The `ws.on('close')` / `ws.on('error')` handlers (lines 528-544):
remove the session from the queue, then run the leave path.  (The
`clients.delete` bookkeeping map is not read anywhere else and is not
modelled.) -/
def closeHandler (w : World) (sid : ℕ) : World × List Send :=
  let w := { w with queue := w.queue.erase sid }
  leaveRoom w sid

/-! ### Miss sequences and reachable room states -/

/-- One miss event, as it can occur in a running room: the room must
first have been put back into `playing` by the serve transition of `tick`
(which never fires in `gameover`, line 164), after which `integrate`
detects the miss and calls `onScore`. -/
def missStep (now : ℤ) (angle : ℝ) (room : Room) (loserSide : Side) : Room :=
  if room.phase = Phase.gameover then room
  else (onScore now (serveStep angle room) loserSide).1

/-- Fold a sequence of miss events (each with its own clock reading and
serve angle) over a room. -/
def applyMisses (room : Room) (l : List (ℤ × ℝ × Side)) : Room :=
  l.foldl (fun r p => missStep p.1 p.2.1 r p.2.2) room

/-- Room states reachable in the server.  `init` is room construction
(`makeRoom` / `startRematch`); `serve` is the serve transition of `tick`;
`score` is `onScore`.  `env` over-approximates every other mutation the
source performs on a live room — physics integration, `paddleBounce`,
paddle input, `lastTickAt` updates, rematch votes, and the slot-nulling
of `leaveRoom` — none of which touches the hearts or the phase. -/
inductive Reachable : Room → Prop where
  | init (id : ℕ) (now : ℤ) (topWs bottomWs : ℕ) (topName bottomName : String)
      (serveRand : Bool) :
      Reachable (newRoomValue id now topWs bottomWs topName bottomName serveRand)
  | env (r r' : Room) : Reachable r →
      r'.top.hearts = r.top.hearts → r'.bottom.hearts = r.bottom.hearts →
      r'.phase = r.phase → Reachable r'
  | serve (r : Room) (angle : ℝ) :
      Reachable r → (r.phase = Phase.countdown ∨ r.phase = Phase.between) →
      Reachable (serveStep angle r)
  | score (r : Room) (now : ℤ) (loserSide : Side) :
      Reachable r → Reachable (onScore now r loserSide).1

/-! ### Small helper lemmas -/

theorem slot_setSlot_same (r : Room) (sd : Side) (sl : Slot) :
    (r.setSlot sd sl).slot sd = sl := by
  cases sd <;> rfl

theorem slot_setSlot_opp (r : Room) (sd : Side) (sl : Slot) :
    (r.setSlot sd sl).slot (opponentSide sd) = r.slot (opponentSide sd) := by
  cases sd <;> rfl

theorem phase_setSlot (r : Room) (sd : Side) (sl : Slot) :
    (r.setSlot sd sl).phase = r.phase := by
  cases sd <;> rfl

/-! ### C1 — the serve bug -/

/-- C1: the claim states that `serveBall` sets
`vy = dir · INIT_BALL_SPEED · cos θ` so that the served velocity has
magnitude `INIT_BALL_SPEED = 780`.  The source (line 186) instead sets
`vy = dir · cos θ`, dropping the speed factor: serving toward `bottom`
with angle `θ = 0` yields `(vx, vy) = (0, 1)` — squared magnitude `1`,
not `780²` — even though the `speed` field is set to `780`. -/
theorem serveBall_vy_not_scaled :
    (serveBall 0 (newRoomValue 0 0 1 2 "A" "B" false)).ball.vy = 1 ∧
    (serveBall 0 (newRoomValue 0 0 1 2 "A" "B" false)).ball.vx = 0 ∧
    (serveBall 0 (newRoomValue 0 0 1 2 "A" "B" false)).ball.speed = INIT_BALL_SPEED ∧
    (serveBall 0 (newRoomValue 0 0 1 2 "A" "B" false)).ball.vx ^ 2 +
        (serveBall 0 (newRoomValue 0 0 1 2 "A" "B" false)).ball.vy ^ 2
      ≠ INIT_BALL_SPEED ^ 2 := by
  have hs : (newRoomValue 0 0 1 2 "A" "B" false).serveToward = Side.bottom := rfl
  refine ⟨?_, ?_, ?_, ?_⟩
  · simp [serveBall, hs]
  · simp [serveBall]
  · simp [serveBall]
  · simp [serveBall, hs, INIT_BALL_SPEED]
    norm_num

/-! ### C6 — paddle bounce -/

/-- C6: after `paddleBounce(side, cx)`, with
`rel = clamp((x − cx)/(pw/2), −1, 1)`,
`newSpeed = clamp(speed·SPEED_UP, 100, MAX_BALL_SPEED)` and
`θ = rel·MAX_BOUNCE_ANGLE`, the ball satisfies `vx = newSpeed·sin θ`,
`vy = |newSpeed·cos θ|` signed `+` for `top` and `−` for `bottom`
(strictly positive resp. negative), and `speed = newSpeed ∈
[100, MAX_BALL_SPEED]`. -/
theorem paddleBounce_spec (r : Room) (side : Side) (cx : ℝ)
    (rel newSpeed angle : ℝ)
    (hrel : rel = clamp ((r.ball.x - cx) / (pw / 2)) (-1) 1)
    (hspeed : newSpeed = clamp (r.ball.speed * SPEED_UP) 100 MAX_BALL_SPEED)
    (hangle : angle = rel * MAX_BOUNCE_ANGLE) :
    (paddleBounce r side cx).ball.vx = newSpeed * Real.sin angle ∧
    (paddleBounce r side cx).ball.speed = newSpeed ∧
    100 ≤ newSpeed ∧ newSpeed ≤ MAX_BALL_SPEED ∧
    (side = Side.top →
      (paddleBounce r side cx).ball.vy = |newSpeed * Real.cos angle| ∧
      0 < (paddleBounce r side cx).ball.vy) ∧
    (side = Side.bottom →
      (paddleBounce r side cx).ball.vy = -|newSpeed * Real.cos angle| ∧
      (paddleBounce r side cx).ball.vy < 0) := by
  subst hangle; subst hspeed; subst hrel
  have h100 : (100:ℝ) ≤ clamp (r.ball.speed * SPEED_UP) 100 MAX_BALL_SPEED :=
    le_max_left _ _
  have hmax : clamp (r.ball.speed * SPEED_UP) 100 MAX_BALL_SPEED ≤ MAX_BALL_SPEED :=
    max_le (by norm_num [MAX_BALL_SPEED]) (min_le_left _ _)
  have hrel1 : (-1:ℝ) ≤ clamp ((r.ball.x - cx) / (pw / 2)) (-1) 1 := le_max_left _ _
  have hrel2 : clamp ((r.ball.x - cx) / (pw / 2)) (-1) 1 ≤ 1 :=
    max_le (by norm_num) (min_le_left _ _)
  have habs : |clamp ((r.ball.x - cx) / (pw / 2)) (-1) 1 * MAX_BOUNCE_ANGLE|
      ≤ MAX_BOUNCE_ANGLE := by
    rw [abs_mul]
    have h1 : |clamp ((r.ball.x - cx) / (pw / 2)) (-1) 1| ≤ 1 :=
      abs_le.mpr ⟨hrel1, hrel2⟩
    have h2 : |MAX_BOUNCE_ANGLE| = MAX_BOUNCE_ANGLE :=
      abs_of_pos (by norm_num [MAX_BOUNCE_ANGLE])
    calc |clamp ((r.ball.x - cx) / (pw / 2)) (-1) 1| * |MAX_BOUNCE_ANGLE|
        ≤ 1 * |MAX_BOUNCE_ANGLE| := mul_le_mul_of_nonneg_right h1 (abs_nonneg _)
      _ = MAX_BOUNCE_ANGLE := by rw [one_mul, h2]
  have hpi := Real.pi_gt_three
  have habs' := abs_le.mp habs
  have hMval : MAX_BOUNCE_ANGLE = (1.05:ℝ) := rfl
  have hcos : 0 < Real.cos (clamp ((r.ball.x - cx) / (pw / 2)) (-1) 1 * MAX_BOUNCE_ANGLE) := by
    apply Real.cos_pos_of_mem_Ioo
    constructor
    · have := habs'.1
      rw [hMval] at this
      norm_num at this ⊢
      linarith
    · have := habs'.2
      rw [hMval] at this
      norm_num at this ⊢
      linarith
  have hvpos : 0 < clamp (r.ball.speed * SPEED_UP) 100 MAX_BALL_SPEED *
      Real.cos (clamp ((r.ball.x - cx) / (pw / 2)) (-1) 1 * MAX_BOUNCE_ANGLE) :=
    mul_pos (lt_of_lt_of_le (by norm_num) h100) hcos
  refine ⟨rfl, rfl, h100, hmax, ?_, ?_⟩
  · rintro rfl
    refine ⟨rfl, ?_⟩
    show 0 < |clamp (r.ball.speed * SPEED_UP) 100 MAX_BALL_SPEED *
      Real.cos (clamp ((r.ball.x - cx) / (pw / 2)) (-1) 1 * MAX_BOUNCE_ANGLE)|
    rw [abs_of_pos hvpos]
    exact hvpos
  · rintro rfl
    refine ⟨rfl, ?_⟩
    show -|clamp (r.ball.speed * SPEED_UP) 100 MAX_BALL_SPEED *
      Real.cos (clamp ((r.ball.x - cx) / (pw / 2)) (-1) 1 * MAX_BOUNCE_ANGLE)| < 0
    rw [abs_of_pos hvpos]
    linarith

/-- C6 witness: a concrete top bounce leaves the paddle strictly downward
into the court (`vy > 0`) at the clamped sped-up pace, and a concrete
bottom bounce leaves strictly upward (`vy < 0`). -/
theorem paddleBounce_spec_witness :
    (0 < (paddleBounce (newRoomValue 0 0 1 2 "A" "B" false) Side.top 450).ball.vy) ∧
    ((paddleBounce (newRoomValue 0 0 1 2 "A" "B" false) Side.bottom 450).ball.vy < 0) :=
  ⟨((paddleBounce_spec (newRoomValue 0 0 1 2 "A" "B" false) Side.top 450
      _ _ _ rfl rfl rfl).2.2.2.2.1 rfl).2,
   ((paddleBounce_spec (newRoomValue 0 0 1 2 "A" "B" false) Side.bottom 450
      _ _ _ rfl rfl rfl).2.2.2.2.2 rfl).2⟩

/-! ### C5 — scoring a miss -/

/-- C5: during `playing`, `onScore(loserSide)` decrements exactly the
loser's hearts (floored at 0, opponent untouched), first emits a `score`
event carrying the updated hearts and `lastMiss = loserSide`, and — when
the loser still has a heart, i.e. the game does not end — leaves the room
in phase `between` with `serveToward = loserSide`,
`nextPhaseAt = now + 1500` and the ball frozen at the center at
`INIT_BALL_SPEED`.  Outside `playing`, `onScore` changes nothing and
emits nothing. -/
theorem onScore_spec (now : ℤ) (r : Room) (loser : Side) :
    (r.phase = Phase.playing →
      ((onScore now r loser).1.slot loser).hearts = max 0 ((r.slot loser).hearts - 1) ∧
      ((onScore now r loser).1.slot (opponentSide loser)).hearts
        = (r.slot (opponentSide loser)).hearts ∧
      (onScore now r loser).2.head? =
        some (OutMsg.score (onScore now r loser).1.top.hearts
          (onScore now r loser).1.bottom.hearts loser) ∧
      (0 < ((onScore now r loser).1.slot loser).hearts →
        (onScore now r loser).1.phase = Phase.between ∧
        (onScore now r loser).1.serveToward = loser ∧
        (onScore now r loser).1.nextPhaseAt = now + 1500 ∧
        (onScore now r loser).1.ball.x = W / 2 ∧
        (onScore now r loser).1.ball.y = H / 2 ∧
        (onScore now r loser).1.ball.vx = 0 ∧
        (onScore now r loser).1.ball.vy = 0 ∧
        (onScore now r loser).1.ball.speed = INIT_BALL_SPEED ∧
        (onScore now r loser).2 = [OutMsg.score (onScore now r loser).1.top.hearts
          (onScore now r loser).1.bottom.hearts loser])) ∧
    (r.phase ≠ Phase.playing → onScore now r loser = (r, [])) := by
  constructor
  · intro h
    rw [onScore, if_neg (by simp [h])]
    cases loser with
    | top =>
      simp only [Room.setSlot, Room.slot, opponentSide, endGame]
      split_ifs with c1 c2
      · exact ⟨rfl, rfl, rfl, fun hpos => absurd c1.1 (not_le.mpr hpos)⟩
      · exact ⟨rfl, rfl, rfl, fun hpos => absurd c2 (not_le.mpr hpos)⟩
      · exact ⟨rfl, rfl, rfl, fun _ => ⟨rfl, rfl, rfl, rfl, rfl, rfl, rfl, rfl, rfl⟩⟩
    | bottom =>
      simp only [Room.setSlot, Room.slot, opponentSide, endGame]
      split_ifs with c1 c2
      · exact ⟨rfl, rfl, rfl, fun hpos => absurd c1.2 (not_le.mpr hpos)⟩
      · exact ⟨rfl, rfl, rfl, fun hpos => absurd c2 (not_le.mpr hpos)⟩
      · exact ⟨rfl, rfl, rfl, fun _ => ⟨rfl, rfl, rfl, rfl, rfl, rfl, rfl, rfl, rfl⟩⟩
  · intro h
    rw [onScore, if_pos h]

/-- Concrete room used by the C5 witness: a fresh room moved into
`playing`. -/
def onScoreWitnessRoom : Room :=
  { newRoomValue 0 0 1 2 "A" "B" false with phase := Phase.playing }

/-- C5 witness: at hearts 3/3 in `playing`, a miss by `top` leaves top at
2 hearts, phase `between`, serve toward `top`, next phase at
`now + 1500`; the same call in phase `between` is a no-op. -/
theorem onScore_spec_witness :
    ((onScore 100 onScoreWitnessRoom Side.top).1.slot Side.top).hearts =
      max 0 ((onScoreWitnessRoom.slot Side.top).hearts - 1) ∧
    (onScore 100 onScoreWitnessRoom Side.top).1.phase = Phase.between ∧
    (onScore 100 onScoreWitnessRoom Side.top).1.serveToward = Side.top ∧
    (onScore 100 onScoreWitnessRoom Side.top).1.nextPhaseAt = 100 + 1500 ∧
    onScore 100 { onScoreWitnessRoom with phase := Phase.between } Side.top =
      ({ onScoreWitnessRoom with phase := Phase.between }, []) := by
  have h := (onScore_spec 100 onScoreWitnessRoom Side.top).1 rfl
  have h2 := (onScore_spec 100 { onScoreWitnessRoom with phase := Phase.between }
    Side.top).2 (by decide)
  have hpos : 0 < ((onScore 100 onScoreWitnessRoom Side.top).1.slot Side.top).hearts := by
    rw [h.1]; decide
  exact ⟨h.1, (h.2.2.2 hpos).1, (h.2.2.2 hpos).2.1, (h.2.2.2 hpos).2.2.1, h2⟩

/-! ### C7 — termination of a match -/

theorem serveStep_top (a : ℝ) (r : Room) : (serveStep a r).top = r.top := rfl

theorem serveStep_bottom (a : ℝ) (r : Room) : (serveStep a r).bottom = r.bottom := rfl

theorem serveStep_phase (a : ℝ) (r : Room) : (serveStep a r).phase = Phase.playing := rfl

theorem missStep_gameover (now : ℤ) (angle : ℝ) (r : Room) (l : Side)
    (h : r.phase = Phase.gameover) : missStep now angle r l = r := by
  rw [missStep, if_pos h]

theorem applyMisses_gameover (l : List (ℤ × ℝ × Side)) :
    ∀ r : Room, r.phase = Phase.gameover → applyMisses r l = r := by
  induction l with
  | nil => intro r _; rfl
  | cons x t ih =>
    intro r h
    simp only [applyMisses, List.foldl_cons]
    rw [missStep_gameover _ _ _ _ h]
    exact ih r h

/-- A single miss on a live room with at least one heart on each side
either ends the game or removes exactly one heart in total, keeping both
sides at one heart or more. -/
theorem missStep_progress (now : ℤ) (angle : ℝ) (r : Room) (l : Side)
    (hne : r.phase ≠ Phase.gameover)
    (ht : 1 ≤ r.top.hearts) (hb : 1 ≤ r.bottom.hearts) :
    (missStep now angle r l).phase = Phase.gameover ∨
    (1 ≤ (missStep now angle r l).top.hearts ∧
     1 ≤ (missStep now angle r l).bottom.hearts ∧
     (missStep now angle r l).top.hearts + (missStep now angle r l).bottom.hearts
       = r.top.hearts + r.bottom.hearts - 1) := by
  rw [missStep, if_neg hne]
  rw [onScore, if_neg (by simp [serveStep_phase])]
  cases l with
  | top =>
    simp only [Room.setSlot, Room.slot, opponentSide, endGame,
      serveStep_top, serveStep_bottom]
    have hmx : max 0 (r.top.hearts - 1) = r.top.hearts - 1 :=
      max_eq_right (by omega)
    split_ifs with c1 c2
    · left; rfl
    · left; rfl
    · right
      rw [hmx] at c2
      push_neg at c2
      refine ⟨?_, ?_, ?_⟩ <;> dsimp only <;> omega
  | bottom =>
    simp only [Room.setSlot, Room.slot, opponentSide, endGame,
      serveStep_top, serveStep_bottom]
    have hmx : max 0 (r.bottom.hearts - 1) = r.bottom.hearts - 1 :=
      max_eq_right (by omega)
    split_ifs with c1 c2
    · left; rfl
    · left; rfl
    · right
      rw [hmx] at c2
      push_neg at c2
      refine ⟨?_, ?_, ?_⟩ <;> dsimp only <;> omega

/-- Inductive bound: a room that is over, or live with both sides at ≥ 1
heart and total hearts at most `length + 1`, is over after the whole miss
sequence. -/
theorem applyMisses_bound (l : List (ℤ × ℝ × Side)) :
    ∀ r : Room,
      (r.phase = Phase.gameover ∨
        (1 ≤ r.top.hearts ∧ 1 ≤ r.bottom.hearts ∧
         r.top.hearts + r.bottom.hearts ≤ (l.length : ℤ) + 1)) →
      (applyMisses r l).phase = Phase.gameover := by
  induction l with
  | nil =>
    intro r h
    rcases h with h | ⟨h1, h2, h3⟩
    · exact h
    · simp only [List.length_nil, Nat.cast_zero, zero_add] at h3
      omega
  | cons x t ih =>
    intro r h
    rcases h with h | ⟨h1, h2, h3⟩
    · rw [applyMisses_gameover _ _ h]; exact h
    · by_cases hg : r.phase = Phase.gameover
      · rw [applyMisses_gameover _ _ hg]; exact hg
      · simp only [applyMisses, List.foldl_cons]
        simp only [List.length_cons, Nat.cast_add, Nat.cast_one] at h3
        rcases missStep_progress x.1 x.2.1 r x.2.2 hg h1 h2 with hdone | ⟨k1, k2, k3⟩
        · exact ih _ (Or.inl hdone)
        · exact ih _ (Or.inr ⟨k1, k2, by omega⟩)

/-- C7: from a fresh room (hearts `HEARTS_START` on both sides), any
sequence of at least `2·HEARTS_START − 1 = 5` miss events leaves the room
in `gameover`: each miss removes exactly one heart from one side and
`endGame` fires as soon as a side reaches zero. -/
theorem misses_reach_gameover (id : ℕ) (now : ℤ) (aws bws : ℕ)
    (an bn : String) (sr : Bool) (l : List (ℤ × ℝ × Side))
    (hl : 2 * HEARTS_START - 1 ≤ (l.length : ℤ)) :
    (applyMisses (newRoomValue id now aws bws an bn sr) l).phase = Phase.gameover := by
  apply applyMisses_bound
  right
  have h1 : (newRoomValue id now aws bws an bn sr).top.hearts = HEARTS_START := rfl
  have h2 : (newRoomValue id now aws bws an bn sr).bottom.hearts = HEARTS_START := rfl
  rw [h1, h2]
  simp only [HEARTS_START] at hl ⊢
  omega

/-- C7 witness: five concrete alternating misses from a fresh room end the
match. -/
theorem misses_reach_gameover_witness :
    2 * HEARTS_START - 1 ≤
      (([((0:ℤ), (0:ℝ), Side.top), (0, 0, Side.bottom), (0, 0, Side.top),
         (0, 0, Side.bottom), (0, 0, Side.top)].length : ℕ) : ℤ) ∧
    (applyMisses (newRoomValue 0 0 1 2 "A" "B" false)
      [((0:ℤ), (0:ℝ), Side.top), (0, 0, Side.bottom), (0, 0, Side.top),
       (0, 0, Side.bottom), (0, 0, Side.top)]).phase = Phase.gameover :=
  ⟨by norm_num [HEARTS_START],
   misses_reach_gameover 0 0 1 2 "A" "B" false _ (by norm_num [HEARTS_START])⟩

/-! ### C8 — the tie branch is dead code -/

/-- Invariant of every reachable room: hearts are non-negative, a room
that is not over has a heart on each side, and the two sides are never
simultaneously at zero. -/
def RoomInv (r : Room) : Prop :=
  0 ≤ r.top.hearts ∧ 0 ≤ r.bottom.hearts ∧
  (r.phase ≠ Phase.gameover → 1 ≤ r.top.hearts ∧ 1 ≤ r.bottom.hearts) ∧
  ¬(r.top.hearts = 0 ∧ r.bottom.hearts = 0)

theorem onScore_inv (now : ℤ) (r : Room) (l : Side) (h : RoomInv r) :
    RoomInv (onScore now r l).1 := by
  by_cases hp : r.phase = Phase.playing
  · obtain ⟨h0t, h0b, hlv, hnz⟩ := h
    obtain ⟨h1t, h1b⟩ := hlv (by simp [hp])
    rw [onScore, if_neg (by simp [hp])]
    cases l with
    | top =>
      simp only [Room.setSlot, Room.slot, opponentSide, endGame]
      split_ifs with c1 c2
      · refine ⟨by dsimp only; omega, by dsimp only; omega, ?_, by dsimp only; omega⟩
        intro hcon; exact absurd rfl hcon
      · refine ⟨by dsimp only; omega, by dsimp only; omega, ?_, by dsimp only; omega⟩
        intro hcon; exact absurd rfl hcon
      · refine ⟨by dsimp only; omega, by dsimp only; omega, ?_, by dsimp only; omega⟩
        intro _
        constructor <;> dsimp only <;> omega
    | bottom =>
      simp only [Room.setSlot, Room.slot, opponentSide, endGame]
      split_ifs with c1 c2
      · refine ⟨by dsimp only; omega, by dsimp only; omega, ?_, by dsimp only; omega⟩
        intro hcon; exact absurd rfl hcon
      · refine ⟨by dsimp only; omega, by dsimp only; omega, ?_, by dsimp only; omega⟩
        intro hcon; exact absurd rfl hcon
      · refine ⟨by dsimp only; omega, by dsimp only; omega, ?_, by dsimp only; omega⟩
        intro _
        constructor <;> dsimp only <;> omega
  · rw [onScore, if_pos hp]
    exact h

theorem reachable_inv (r : Room) (h : Reachable r) : RoomInv r := by
  induction h with
  | init id now tws bws tn bn sr =>
    have h1 : (newRoomValue id now tws bws tn bn sr).top.hearts = 3 := rfl
    have h2 : (newRoomValue id now tws bws tn bn sr).bottom.hearts = 3 := rfl
    exact ⟨by omega, by omega, fun _ => ⟨by omega, by omega⟩, by omega⟩
  | env r r' hr ht hb hp ih =>
    obtain ⟨a, b, c, d⟩ := ih
    exact ⟨by rw [ht]; exact a, by rw [hb]; exact b,
      by rw [hp, ht, hb]; exact c, by rw [ht, hb]; exact d⟩
  | serve r angle hr hph ih =>
    obtain ⟨a, b, c, d⟩ := ih
    have hne : r.phase ≠ Phase.gameover := by
      rcases hph with h | h <;> simp [h]
    obtain ⟨e, f⟩ := c hne
    exact ⟨a, b, fun _ => ⟨e, f⟩, d⟩
  | score r now l hr ih =>
    exact onScore_inv now r l ih

/-- C8: from any reachable room state, one `onScore` call never reaches
the `endGame(null, "tie")` branch — it emits no `gameOver` with a null
winner and reason `"tie"`, and never leaves both sides at zero hearts:
exactly one side's hearts drop per miss, `onScore` acts only in
`playing`, and the room is already in `gameover` once a side is at 0. -/
theorem tie_branch_unreachable (r : Room) (hr : Reachable r) (now : ℤ) (loser : Side) :
    (∀ m ∈ (onScore now r loser).2, ∀ hT hB : ℤ,
        m ≠ OutMsg.gameOver none "tie" hT hB) ∧
    ¬((onScore now r loser).1.top.hearts = 0 ∧
      (onScore now r loser).1.bottom.hearts = 0) := by
  obtain ⟨h0t, h0b, hlv, hnz⟩ := reachable_inv r hr
  by_cases hp : r.phase = Phase.playing
  · obtain ⟨h1t, h1b⟩ := hlv (by simp [hp])
    rw [onScore, if_neg (by simp [hp])]
    cases loser with
    | top =>
      simp only [Room.setSlot, Room.slot, opponentSide, endGame]
      split_ifs with c1 c2
      · exfalso
        have := c1.2
        omega
      · constructor
        · intro m hm hT hB
          dsimp only at hm
          rcases List.mem_cons.mp hm with rfl | hm
          · simp
          · rcases List.mem_singleton.mp hm with rfl
            simp
        · dsimp only; omega
      · constructor
        · intro m hm hT hB
          dsimp only at hm
          rcases List.mem_singleton.mp hm with rfl
          simp
        · dsimp only
          omega
    | bottom =>
      simp only [Room.setSlot, Room.slot, opponentSide, endGame]
      split_ifs with c1 c2
      · exfalso
        have := c1.1
        omega
      · constructor
        · intro m hm hT hB
          dsimp only at hm
          rcases List.mem_cons.mp hm with rfl | hm
          · simp
          · rcases List.mem_singleton.mp hm with rfl
            simp
        · dsimp only; omega
      · constructor
        · intro m hm hT hB
          dsimp only at hm
          rcases List.mem_singleton.mp hm with rfl
          simp
        · dsimp only
          omega
  · rw [onScore, if_pos hp]
    exact ⟨by intro m hm hT hB; simp at hm, hnz⟩

/-- C8 witness: in a served (playing) fresh room, a miss emits no tie
event and leaves hearts 2/3. -/
theorem tie_branch_unreachable_witness :
    OutMsg.gameOver none "tie" 0 0 ∉
      (onScore 7 (serveStep 0 (newRoomValue 0 0 1 2 "A" "B" false)) Side.top).2 ∧
    ¬((onScore 7 (serveStep 0 (newRoomValue 0 0 1 2 "A" "B" false))
        Side.top).1.top.hearts = 0 ∧
      (onScore 7 (serveStep 0 (newRoomValue 0 0 1 2 "A" "B" false))
        Side.top).1.bottom.hearts = 0) := by
  have h := tie_branch_unreachable _
    (Reachable.serve _ 0 (Reachable.init 0 0 1 2 "A" "B" false) (Or.inl rfl)) 7 Side.top
  exact ⟨fun hm => h.1 _ hm 0 0 rfl, h.2⟩

/-! ### Registry lemmas -/

theorem find?_key_map {α : Type} (l : List α) (p : α → Bool) (f : α → α)
    (hf : ∀ x, p x = true → p (f x) = true) :
    (l.map (fun x => if p x then f x else x)).find? p = (l.find? p).map f := by
  induction l with
  | nil => rfl
  | cons a t ih =>
    simp only [List.map_cons]
    by_cases h : p a = true
    · rw [if_pos h, List.find?_cons_of_pos _ (hf a h), List.find?_cons_of_pos _ h]
      rfl
    · rw [if_neg h, List.find?_cons_of_neg _ (by simp [h]),
        List.find?_cons_of_neg _ (by simp [h])]
      exact ih

theorem lookupSess_updateSess (w : World) (sid : ℕ) (f : Sess → Sess)
    (hf : ∀ s, (f s).sid = s.sid) :
    lookupSess (updateSess w sid f) sid = (lookupSess w sid).map f := by
  apply find?_key_map
  intro x hx
  simp only [beq_iff_eq] at hx ⊢
  rw [hf, hx]

theorem lookupRoom_updateRoom (w : World) (rid : ℕ) (f : Room → Room)
    (hf : ∀ r, r.rid = rid → (f r).rid = rid) :
    lookupRoom (updateRoom w rid f) rid = (lookupRoom w rid).map f := by
  apply find?_key_map
  intro x hx
  simp only [beq_iff_eq] at hx ⊢
  exact hf x hx

theorem lookupSess_updateRoom (w : World) (rid : ℕ) (f : Room → Room) (sid : ℕ) :
    lookupSess (updateRoom w rid f) sid = lookupSess w sid := rfl

theorem lookupRoom_updateSess (w : World) (sid : ℕ) (f : Sess → Sess) (rid : ℕ) :
    lookupRoom (updateSess w sid f) rid = lookupRoom w rid := rfl

theorem sessions_destroyRoom (w : World) (rid : ℕ) :
    (destroyRoom w rid).sessions = w.sessions := by
  unfold destroyRoom
  cases lookupRoom w rid <;> rfl

theorem lookupSess_destroyRoom (w : World) (rid sid : ℕ) :
    lookupSess (destroyRoom w rid) sid = lookupSess w sid := by
  unfold lookupSess
  rw [sessions_destroyRoom]

theorem lookupRoom_destroyRoom (w : World) (rid : ℕ) (room : Room)
    (h : lookupRoom w rid = some room) :
    lookupRoom (destroyRoom w rid) rid = none := by
  unfold destroyRoom
  rw [h]
  unfold lookupRoom
  apply List.find?_eq_none.mpr
  intro x hx
  have hq := (List.mem_filter.mp hx).2
  simp only [bne_iff_ne, ne_eq] at hq
  simp only [beq_iff_eq]
  exact hq

theorem activeLoops_destroyRoom (w : World) (rid : ℕ) (room : Room)
    (h : lookupRoom w rid = some room) :
    rid ∉ (destroyRoom w rid).activeLoops := by
  unfold destroyRoom
  rw [h]
  intro hmem
  have := (List.mem_filter.mp hmem).2
  simp at this

theorem sendToSlot_snd (w : World) (sl : Slot) (m : OutMsg) (p : Send)
    (hp : p ∈ sendToSlot w sl m) : p.2 = m := by
  unfold sendToSlot at hp
  cases hws : sl.ws with
  | none => rw [hws] at hp; simp at hp
  | some oid =>
    rw [hws] at hp
    dsimp only at hp
    unfold safeSend at hp
    split_ifs at hp with ho
    · rcases List.mem_singleton.mp hp with rfl; rfl
    · simp at hp

theorem mem_sendToSlot (w : World) (sl : Slot) (m : OutMsg) (oid : ℕ)
    (hws : sl.ws = some oid) (ho : isOpen w oid = true) :
    (oid, m) ∈ sendToSlot w sl m := by
  unfold sendToSlot
  rw [hws]
  dsimp only
  unfold safeSend
  rw [if_pos ho]
  exact List.mem_singleton.mpr rfl

/-! ### C2 — rematch side assignment -/

/-- A finished room: session 1 was `top`, session 2 was `bottom`, both
rematch votes are in. -/
def oldRematchRoom : Room :=
  { newRoomValue 0 500 1 2 "A" "B" false with
      phase := Phase.gameover, rvTop := true, rvBottom := true }

def rematchWorld : World :=
  { sessions := [⟨1, "A", some 0, some Side.top, true⟩,
                 ⟨2, "B", some 0, some Side.bottom, true⟩],
    rooms := [oldRematchRoom],
    queue := [], activeLoops := [0], nextRoomId := 1 }

/-- C2: the claim (and the source's own comments, lines 374 and 387) says
the rematch room swaps sides.  It does not: `startRematch` passes
`(oldTop.ws, oldBottom.ws)` to `makeRoom(a, b, swapSides = true)`, whose
swap branch assigns `top = a`, so session 1 (the old `top`) is `top`
again and session 2 stays `bottom`.  The remaining clauses of the claim
hold: hearts are reset to `HEARTS_START`, phase is `countdown`,
`nextPhaseAt = now + 3000`, and the old room is destroyed. -/
theorem startRematch_keeps_sides :
    ((lookupRoom (startRematch rematchWorld oldRematchRoom 1000 true).1 1).map
        (fun r => r.top.ws) = some (some 1)) ∧
    ((lookupRoom (startRematch rematchWorld oldRematchRoom 1000 true).1 1).map
        (fun r => r.bottom.ws) = some (some 2)) ∧
    ((lookupSess (startRematch rematchWorld oldRematchRoom 1000 true).1 1).map
        (fun s => s.side) = some (some Side.top)) ∧
    ((lookupSess (startRematch rematchWorld oldRematchRoom 1000 true).1 2).map
        (fun s => s.side) = some (some Side.bottom)) ∧
    ((lookupRoom (startRematch rematchWorld oldRematchRoom 1000 true).1 1).map
        (fun r => r.top.hearts) = some HEARTS_START) ∧
    ((lookupRoom (startRematch rematchWorld oldRematchRoom 1000 true).1 1).map
        (fun r => r.bottom.hearts) = some HEARTS_START) ∧
    ((lookupRoom (startRematch rematchWorld oldRematchRoom 1000 true).1 1).map
        (fun r => r.phase) = some Phase.countdown) ∧
    ((lookupRoom (startRematch rematchWorld oldRematchRoom 1000 true).1 1).map
        (fun r => r.nextPhaseAt) = some (1000 + 3000)) ∧
    ((lookupRoom (startRematch rematchWorld oldRematchRoom 1000 true).1 0).isNone
        = true) := by
  decide

/-! ### C3 — leave / disconnect forfeit -/

/-- A live match: session 1 on `top`, session 2 on `bottom`, both open,
room 0 in `playing`. -/
def leaveWorld : World :=
  { sessions := [⟨1, "A", some 0, some Side.top, true⟩,
                 ⟨2, "B", some 0, some Side.bottom, true⟩],
    rooms := [{ newRoomValue 0 500 1 2 "A" "B" false with phase := Phase.playing }],
    queue := [], activeLoops := [0], nextRoomId := 1 }

/-- C3 counterexample: when session 1 leaves the live match, the source
broadcasts the forfeit `gameOver` event (winner `bottom`, reason
`"disconnect"`, hearts unchanged) — but it never assigns
`room.phase = 'gameover'`: the room is still in `playing` afterwards,
refuting the claim's "moves the room's phase to gameover". -/
theorem leaveRoom_keeps_phase :
    ((leaveRoom leaveWorld 1).2 =
      [(1, OutMsg.gameOver (some Side.bottom) "disconnect" 3 3),
       (2, OutMsg.gameOver (some Side.bottom) "disconnect" 3 3)]) ∧
    ((lookupRoom (leaveRoom leaveWorld 1).1 0).map (fun r => r.phase)
      = some Phase.playing) ∧
    Phase.playing ≠ Phase.gameover := by
  decide

theorem activeLoops_updateSess (w : World) (sid : ℕ) (f : Sess → Sess) :
    (updateSess w sid f).activeLoops = w.activeLoops := rfl

/-- C3 (amended): on the leave path of a session assigned to a room —
`leaveRoom` message, socket close, or error all converge on `leaveRoom` —
if the room is not in `gameover` and the opponent's socket is still open,
the forfeit `gameOver` (winner = opposite side, reason `"disconnect"`,
hearts unchanged) is emitted to every still-open peer of the room (the
opponent always, the leaver too while its socket is open); every emitted
frame is that event.  The room's **phase is left unchanged** (the source
never moves it to `gameover`).  The leaver's `roomId`/`side` are cleared
and its slot nulled; once both slots are null the room is removed from
the registry with its loops stopped. -/
theorem leaveRoom_forfeit_spec (w : World) (sid : ℕ) (s : Sess) (rid : ℕ)
    (room : Room) (sd : Side)
    (hs : lookupSess w sid = some s) (hrid : s.roomId = some rid)
    (hside : s.side = some sd) (hroom : lookupRoom w rid = some room) :
    (∀ oid, room.phase ≠ Phase.gameover →
      (room.slot (opponentSide sd)).ws = some oid → isOpen w oid = true →
      ((oid, OutMsg.gameOver (some (opponentSide sd)) "disconnect"
          room.top.hearts room.bottom.hearts) ∈ (leaveRoom w sid).2 ∧
       (∀ p ∈ (leaveRoom w sid).2,
          p.2 = OutMsg.gameOver (some (opponentSide sd)) "disconnect"
            room.top.hearts room.bottom.hearts) ∧
       ((room.slot sd).ws = some sid → isOpen w sid = true →
          (sid, OutMsg.gameOver (some (opponentSide sd)) "disconnect"
            room.top.hearts room.bottom.hearts) ∈ (leaveRoom w sid).2))) ∧
    lookupSess (leaveRoom w sid).1 sid = some { s with roomId := none, side := none } ∧
    (∀ oid, (room.slot (opponentSide sd)).ws = some oid →
      (lookupRoom (leaveRoom w sid).1 rid).map (fun r => ((r.slot sd).ws, r.phase))
        = some (none, room.phase)) ∧
    ((room.slot (opponentSide sd)).ws = none →
      lookupRoom (leaveRoom w sid).1 rid = none ∧
      rid ∉ (leaveRoom w sid).1.activeLoops) := by
  have hrm : room.rid = rid := by
    have := List.find?_some hroom
    simpa [beq_iff_eq] using this
  cases sd with
  | top =>
    simp only [leaveRoom, hs, hrid, hroom, hside, opponentSide, Room.slot, Room.setSlot]
    refine ⟨?_, ?_, ?_, ?_⟩
    · intro oid h1 h2 h3
      simp only [h2, h1, h3, ne_eq, not_false_eq_true, and_self, if_true, if_pos]
      refine ⟨?_, ?_, ?_⟩
      · exact List.mem_append_right _ (mem_sendToSlot w room.bottom _ oid h2 h3)
      · intro p hp
        rcases List.mem_append.mp hp with h | h
        · exact sendToSlot_snd _ _ _ _ h
        · exact sendToSlot_snd _ _ _ _ h
      · intro hws ho
        exact List.mem_append_left _ (mem_sendToSlot w room.top _ sid hws ho)
    · rw [lookupSess_updateSess _ sid
        (fun s => { s with roomId := none, side := none }) (fun _ => rfl)]
      have hl : ∀ w' : World, w'.sessions = w.sessions →
          lookupSess w' sid = some s := by
        intro w' hw'
        unfold lookupSess
        rw [hw']
        exact hs
      split
      · rw [hl _ (by rw [sessions_destroyRoom]; rfl)]; rfl
      · rw [hl (updateRoom w rid
            (fun _ => { room with top := { room.top with ws := none } })) rfl]
        rfl
    · intro oid h2
      rw [lookupRoom_updateSess]
      rw [if_neg (by simp [h2])]
      rw [lookupRoom_updateRoom w rid
        (fun _ => { room with top := { room.top with ws := none } }) (fun r _ => hrm), hroom]
      simp [Room.slot]
    · intro h2
      rw [if_pos (by simp [h2])]
      constructor
      · rw [lookupRoom_updateSess]
        exact lookupRoom_destroyRoom _ _ _
          (by rw [lookupRoom_updateRoom w rid
              (fun _ => { room with top := { room.top with ws := none } })
              (fun r _ => hrm), hroom]; rfl)
      · rw [activeLoops_updateSess]
        exact activeLoops_destroyRoom _ _ _
          (by rw [lookupRoom_updateRoom w rid
              (fun _ => { room with top := { room.top with ws := none } })
              (fun r _ => hrm), hroom]; rfl)
  | bottom =>
    simp only [leaveRoom, hs, hrid, hroom, hside, opponentSide, Room.slot, Room.setSlot]
    refine ⟨?_, ?_, ?_, ?_⟩
    · intro oid h1 h2 h3
      simp only [h2, h1, h3, ne_eq, not_false_eq_true, and_self, if_true, if_pos]
      refine ⟨?_, ?_, ?_⟩
      · exact List.mem_append_left _ (mem_sendToSlot w room.top _ oid h2 h3)
      · intro p hp
        rcases List.mem_append.mp hp with h | h
        · exact sendToSlot_snd _ _ _ _ h
        · exact sendToSlot_snd _ _ _ _ h
      · intro hws ho
        exact List.mem_append_right _ (mem_sendToSlot w room.bottom _ sid hws ho)
    · rw [lookupSess_updateSess _ sid
        (fun s => { s with roomId := none, side := none }) (fun _ => rfl)]
      have hl : ∀ w' : World, w'.sessions = w.sessions →
          lookupSess w' sid = some s := by
        intro w' hw'
        unfold lookupSess
        rw [hw']
        exact hs
      split
      · rw [hl _ (by rw [sessions_destroyRoom]; rfl)]; rfl
      · rw [hl (updateRoom w rid
            (fun _ => { room with bottom := { room.bottom with ws := none } })) rfl]
        rfl
    · intro oid h2
      rw [lookupRoom_updateSess]
      rw [if_neg (by simp [h2])]
      rw [lookupRoom_updateRoom w rid
        (fun _ => { room with bottom := { room.bottom with ws := none } }) (fun r _ => hrm), hroom]
      simp [Room.slot]
    · intro h2
      rw [if_pos (by simp [h2])]
      constructor
      · rw [lookupRoom_updateSess]
        exact lookupRoom_destroyRoom _ _ _
          (by rw [lookupRoom_updateRoom w rid
              (fun _ => { room with bottom := { room.bottom with ws := none } })
              (fun r _ => hrm), hroom]; rfl)
      · rw [activeLoops_updateSess]
        exact activeLoops_destroyRoom _ _ _
          (by rw [lookupRoom_updateRoom w rid
              (fun _ => { room with bottom := { room.bottom with ws := none } })
              (fun r _ => hrm), hroom]; rfl)

/-- C3 witness: in the concrete live match, the opponent receives the
forfeit event, the leaver's session fields are cleared, and the slot is
nulled with the phase untouched. -/
theorem leaveRoom_forfeit_spec_witness :
    ((2, OutMsg.gameOver (some Side.bottom) "disconnect" 3 3) ∈ (leaveRoom leaveWorld 1).2) ∧
    lookupSess (leaveRoom leaveWorld 1).1 1 = some ⟨1, "A", none, none, true⟩ ∧
    (lookupRoom (leaveRoom leaveWorld 1).1 0).map (fun r => ((r.slot Side.top).ws, r.phase))
      = some (none, Phase.playing) := by
  have h := leaveRoom_forfeit_spec leaveWorld 1 ⟨1, "A", some 0, some Side.top, true⟩ 0
    ({ newRoomValue 0 500 1 2 "A" "B" false with phase := Phase.playing }) Side.top
    rfl rfl rfl rfl
  exact ⟨(h.1 2 (by decide) rfl rfl).1, h.2.1, h.2.2.1 2 rfl⟩

/-! ### C10 — the leave path is idempotent per session -/

/-- After a leave that found the session's room, the session's `roomId`
and `side` are null. -/
theorem lookupSess_leaveRoom (w : World) (sid : ℕ) (s : Sess) (rid : ℕ)
    (room : Room) (sd : Side)
    (hs : lookupSess w sid = some s) (hrid : s.roomId = some rid)
    (hroom : lookupRoom w rid = some room) (hside : s.side = some sd) :
    lookupSess (leaveRoom w sid).1 sid = some { s with roomId := none, side := none } := by
  have hl : ∀ w' : World, w'.sessions = w.sessions → lookupSess w' sid = some s := by
    intro w' hw'
    unfold lookupSess
    rw [hw']
    exact hs
  cases sd with
  | top =>
    simp only [leaveRoom, hs, hrid, hroom, hside, opponentSide, Room.slot, Room.setSlot]
    rw [lookupSess_updateSess _ sid
      (fun s => { s with roomId := none, side := none }) (fun _ => rfl)]
    split
    · rw [hl _ (by rw [sessions_destroyRoom]; rfl)]; rfl
    · rw [hl (updateRoom w rid
        (fun _ => { room with top := { room.top with ws := none } })) rfl]
      rfl
  | bottom =>
    simp only [leaveRoom, hs, hrid, hroom, hside, opponentSide, Room.slot, Room.setSlot]
    rw [lookupSess_updateSess _ sid
      (fun s => { s with roomId := none, side := none }) (fun _ => rfl)]
    split
    · rw [hl _ (by rw [sessions_destroyRoom]; rfl)]; rfl
    · rw [hl (updateRoom w rid
        (fun _ => { room with bottom := { room.bottom with ws := none } })) rfl]
      rfl

/-- A second run of the leave path for the same session — with the queue
meanwhile arbitrarily changed, as the close handler does — performs no
room-side effect and emits nothing. -/
theorem leaveRoom_second (w : World) (sid : ℕ) (q' : List ℕ) :
    leaveRoom { (leaveRoom w sid).1 with queue := q' } sid
      = ({ (leaveRoom w sid).1 with queue := q' }, []) := by
  cases hs : lookupSess w sid with
  | none =>
    have h1 : leaveRoom w sid = (w, []) := by
      simp only [leaveRoom, hs]
    rw [h1]
    have hs' : lookupSess { w with queue := q' } sid = none := hs
    simp only [leaveRoom, hs']
  | some s =>
    cases hrid : s.roomId with
    | none =>
      have h1 : leaveRoom w sid = (w, []) := by
        simp only [leaveRoom, hs, hrid]
      rw [h1]
      have hs' : lookupSess { w with queue := q' } sid = some s := hs
      simp only [leaveRoom, hs', hrid]
    | some rid =>
      cases hroom : lookupRoom w rid with
      | none =>
        have h1 : leaveRoom w sid =
            (updateSess w sid (fun s => { s with roomId := none }), []) := by
          simp only [leaveRoom, hs, hrid, hroom]
        rw [h1]
        have hs' : lookupSess { updateSess w sid (fun s => { s with roomId := none })
            with queue := q' } sid = some { s with roomId := none } := by
          show lookupSess (updateSess w sid (fun s => { s with roomId := none })) sid = _
          rw [lookupSess_updateSess _ sid (fun s => { s with roomId := none })
            (fun _ => rfl), hs]
          rfl
        simp only [leaveRoom, hs']
      | some room =>
        cases hside : s.side with
        | none =>
          have h1 : leaveRoom w sid = (w, []) := by
            simp only [leaveRoom, hs, hrid, hroom, hside]
          rw [h1]
          have hs' : lookupSess { w with queue := q' } sid = some s := hs
          have hroom' : lookupRoom { w with queue := q' } rid = some room := hroom
          simp only [leaveRoom, hs', hrid, hroom', hside]
        | some sd =>
          have hafter := lookupSess_leaveRoom w sid s rid room sd hs hrid hroom hside
          generalize hX : (leaveRoom w sid).1 = X at hafter ⊢
          have hs' : lookupSess { X with queue := q' } sid
              = some { s with roomId := none, side := none } := hafter
          simp only [leaveRoom, hs']

/-- C10: `leaveRoom` returns immediately when the session's `roomId` is
null, and after any leave the session's `roomId` is null, so when the
close (or error) handler runs after a `leaveRoom` message for the same
session, it only removes the session from the queue: the room-side
effects (forfeit emission, slot nulling, room destruction) happen at most
once. -/
theorem leave_idempotent (w : World) (sid : ℕ) :
    (∀ s, lookupSess w sid = some s → s.roomId = none → leaveRoom w sid = (w, [])) ∧
    closeHandler (leaveRoom w sid).1 sid
      = ({ (leaveRoom w sid).1 with queue := (leaveRoom w sid).1.queue.erase sid }, []) := by
  constructor
  · intro s hs hrid
    simp only [leaveRoom, hs, hrid]
  · exact leaveRoom_second w sid ((leaveRoom w sid).1.queue.erase sid)

/-- A session that is not in any room. -/
def idemWorld : World :=
  { sessions := [⟨1, "A", none, none, true⟩], rooms := [], queue := [1],
    activeLoops := [], nextRoomId := 0 }

/-- C10 witness: a roomless session's leave is a no-op, and the close
handler after a completed leave only erases the queue entry. -/
theorem leave_idempotent_witness :
    leaveRoom idemWorld 1 = (idemWorld, []) ∧
    closeHandler (leaveRoom leaveWorld 1).1 1
      = ({ (leaveRoom leaveWorld 1).1 with
           queue := (leaveRoom leaveWorld 1).1.queue.erase 1 }, []) :=
  ⟨(leave_idempotent idemWorld 1).1 ⟨1, "A", none, none, true⟩ rfl rfl,
   (leave_idempotent leaveWorld 1).2⟩

/-! ### C4 — paddle input clamping -/

/-- The value is a finite JS number in `[0, 1]`. -/
def inUnit (p : JSNum) : Prop := ∃ q : ℚ, p = JSNum.num q ∧ 0 ≤ q ∧ q ≤ 1

/-- A paddle frame `{type:"paddle", x}`. -/
def paddleFrame (v : JSNum) : Frame :=
  Frame.parsed (JVal.jobj (some (JVal.jstr "paddle")) none (some (JVal.jnum v)))

/-- `clamp(x, 0, 1)` of any JS number except `NaN` (JSON numbers are
finite or, after overflow, `±Infinity` — never `NaN`) lands in `[0,1]`. -/
theorem clampN_inUnit (v : JSNum) (hv : v ≠ JSNum.nan) :
    inUnit (clampN v (JSNum.num 0) (JSNum.num 1)) := by
  cases v with
  | num q =>
    exact ⟨max 0 (min 1 q), rfl, le_max_left _ _, max_le (by norm_num) (min_le_left _ _)⟩
  | posInf => exact ⟨1, by decide, by norm_num, le_refl 1⟩
  | negInf => exact ⟨0, by decide, le_refl 0, by norm_num⟩
  | nan => exact absurd rfl hv

/-- C4: a `paddle` message from a session with a room and an assigned
side writes `clamp(x, 0, 1)` to that side's paddle slot and nothing
else; hence if both paddle slots were in `[0,1]`, they still are for
every JSON-number `x` — including out-of-range and (via overflow)
infinite values.  No reply is sent. -/
theorem paddle_clamp_spec (oracle : JVal → JSNum) (now : ℤ) (sr : Bool)
    (bits : ℕ → Bool × Bool) (w : World) (sid : ℕ) (s : Sess) (rid : ℕ)
    (room : Room) (sd : Side) (v : JSNum)
    (hs : lookupSess w sid = some s) (hrid : s.roomId = some rid)
    (hside : s.side = some sd) (hroom : lookupRoom w rid = some room)
    (hnan : v ≠ JSNum.nan)
    (htop : inUnit room.paddles.topX) (hbot : inUnit room.paddles.bottomX) :
    ∃ room',
      lookupRoom (handleMessage oracle now sr bits w sid (paddleFrame v)).1 rid
        = some room' ∧
      (match sd with
        | Side.top => room'.paddles.topX
        | Side.bottom => room'.paddles.bottomX) = clampN v (JSNum.num 0) (JSNum.num 1) ∧
      inUnit room'.paddles.topX ∧ inUnit room'.paddles.bottomX ∧
      (handleMessage oracle now sr bits w sid (paddleFrame v)).2 = [] := by
  cases sd with
  | top =>
    have hred : handleMessage oracle now sr bits w sid (paddleFrame v)
        = (updateRoom w rid (fun r =>
            { r with paddles := { r.paddles with
                topX := clampN v (JSNum.num 0) (JSNum.num 1) } }), []) := by
      simp [handleMessage, paddleFrame, hs, hrid, hside, dispatchKey, msgX,
        jsNumber, isFalsy, typeofObject, hroom]
    rw [hred]
    refine ⟨{ room with paddles := { room.paddles with
      topX := clampN v (JSNum.num 0) (JSNum.num 1) } }, ?_, rfl, ?_, ?_, rfl⟩
    · rw [lookupRoom_updateRoom w rid
        (fun r => { r with paddles := { r.paddles with
          topX := clampN v (JSNum.num 0) (JSNum.num 1) } })
        (fun r hr => hr), hroom]
      rfl
    · exact clampN_inUnit v hnan
    · exact hbot
  | bottom =>
    have hred : handleMessage oracle now sr bits w sid (paddleFrame v)
        = (updateRoom w rid (fun r =>
            { r with paddles := { r.paddles with
                bottomX := clampN v (JSNum.num 0) (JSNum.num 1) } }), []) := by
      simp [handleMessage, paddleFrame, hs, hrid, hside, dispatchKey, msgX,
        jsNumber, isFalsy, typeofObject, hroom]
    rw [hred]
    refine ⟨{ room with paddles := { room.paddles with
      bottomX := clampN v (JSNum.num 0) (JSNum.num 1) } }, ?_, rfl, ?_, ?_, rfl⟩
    · rw [lookupRoom_updateRoom w rid
        (fun r => { r with paddles := { r.paddles with
          bottomX := clampN v (JSNum.num 0) (JSNum.num 1) } })
        (fun r hr => hr), hroom]
      rfl
    · exact htop
    · exact clampN_inUnit v hnan

/-- C4 witness: an infinite paddle input from the `top` player of the
concrete live match is clamped to 1 (and no reply is sent). -/
theorem paddle_clamp_spec_witness :
    (lookupRoom (handleMessage (fun _ => JSNum.nan) 0 false (fun _ => (false, false))
        leaveWorld 1 (paddleFrame JSNum.posInf)).1 0).map (fun r => r.paddles.topX)
      = some (JSNum.num 1) ∧
    (handleMessage (fun _ => JSNum.nan) 0 false (fun _ => (false, false))
        leaveWorld 1 (paddleFrame JSNum.posInf)).2 = [] := by
  obtain ⟨room', h1, h2, h3, h4, h5⟩ :=
    paddle_clamp_spec (fun _ => JSNum.nan) 0 false (fun _ => (false, false))
      leaveWorld 1 ⟨1, "A", some 0, some Side.top, true⟩ 0
      ({ newRoomValue 0 500 1 2 "A" "B" false with phase := Phase.playing }) Side.top
      JSNum.posInf rfl rfl rfl rfl (by decide)
      ⟨1/2, rfl, by norm_num, by norm_num⟩ ⟨1/2, rfl, by norm_num, by norm_num⟩
  refine ⟨?_, h5⟩
  rw [h1]
  have h2' : room'.paddles.topX = clampN JSNum.posInf (JSNum.num 0) (JSNum.num 1) := h2
  rw [Option.map_some', h2']
  decide

/-! ### C9 — inbound frame handling -/

/-- Only an object (the only truthy value of `typeof === 'object'` among
parse results apart from arrays) can have a string `type` property. -/
theorem dispatchKey_obj : ∀ (v : JVal) (t : String), dispatchKey v = some t →
    isFalsy v = false ∧ typeofObject v = true
  | .jobj _ _ _, _, _ => ⟨rfl, rfl⟩
  | .jnull, _, h => Option.noConfusion h
  | .jbool _, _, h => Option.noConfusion h
  | .jnum _, _, h => Option.noConfusion h
  | .jstr _, _, h => Option.noConfusion h
  | .jarr, _, h => Option.noConfusion h

/-- A lone connected session with no room. -/
def c9World : World :=
  { sessions := [⟨1, "A", none, none, true⟩], rooms := [], queue := [],
    activeLoops := [], nextRoomId := 0 }

/-- C9 counterexample: a frame parsing to a JSON **array** is not a JSON
object, yet it is not silently discarded: `typeof [] === 'object'` lets
it through the guard, its `type` is `undefined`, and the `default` branch
replies with the unknown-type error. -/
theorem array_frame_gets_error_reply :
    (handleMessage (fun _ => JSNum.nan) 0 false (fun _ => (false, false))
        c9World 1 (Frame.parsed JVal.jarr)).2
      = [(1, OutMsg.errorMsg "Unknown message type")] ∧
    [(1, OutMsg.errorMsg "Unknown message type")] ≠ ([] : List Send) := by
  decide

/-- C9 (amended): an unparseable frame, and a frame parsing to `null`, a
boolean, a number or a string, is silently dropped (no state change, no
reply, connection kept open); a parsed value that passes the object guard
(an object — or an array — whose `type` is not one of the five known
commands) gets the `{type:"error", message:"Unknown message type"}`
reply with no state change; and the out-of-context commands — `paddle`
without a room, side, or registered room, `rematchRequest` without a
room/side or whose room is missing or not in `gameover` — are silently
ignored: no state change, no reply. -/
theorem handleMessage_guards (oracle : JVal → JSNum) (now : ℤ) (sr : Bool)
    (bits : ℕ → Bool × Bool) (w : World) (sid : ℕ) (s : Sess)
    (hs : lookupSess w sid = some s) :
    (handleMessage oracle now sr bits w sid Frame.invalid = (w, [])) ∧
    (∀ v, (isFalsy v || !typeofObject v) = true →
      handleMessage oracle now sr bits w sid (Frame.parsed v) = (w, [])) ∧
    (∀ v, typeofObject v = true → isFalsy v = false →
      (∀ t, dispatchKey v = some t →
        t ∉ (["joinQueue", "cancelQueue", "paddle", "rematchRequest",
              "leaveRoom"] : List String)) →
      isOpen w sid = true →
      handleMessage oracle now sr bits w sid (Frame.parsed v)
        = (w, [(sid, OutMsg.errorMsg "Unknown message type")])) ∧
    (∀ v, dispatchKey v = some "paddle" →
      (s.roomId = none ∨ s.side = none ∨
        (∃ rid, s.roomId = some rid ∧ lookupRoom w rid = none)) →
      handleMessage oracle now sr bits w sid (Frame.parsed v) = (w, [])) ∧
    (∀ v, dispatchKey v = some "rematchRequest" →
      (s.roomId = none ∨ s.side = none ∨
        (∃ rid, s.roomId = some rid ∧ (lookupRoom w rid = none ∨
          ∃ room, lookupRoom w rid = some room ∧ room.phase ≠ Phase.gameover))) →
      handleMessage oracle now sr bits w sid (Frame.parsed v) = (w, [])) := by
  refine ⟨rfl, ?_, ?_, ?_, ?_⟩
  · intro v hv
    simp only [handleMessage]
    rw [if_pos hv]
  · intro v htyo hfal hkeys hopen
    cases hdk : dispatchKey v with
    | none =>
      simp [handleMessage, hs, htyo, hfal, hdk, safeSend, hopen]
    | some t =>
      have hne := hkeys t hdk
      simp only [List.mem_cons, List.not_mem_nil, or_false, not_or] at hne
      obtain ⟨h1, h2, h3, h4, h5⟩ := hne
      simp [handleMessage, hs, htyo, hfal, hdk, h1, h2, h3, h4, h5, safeSend, hopen]
  · intro v hdk hoc
    obtain ⟨hfal, htyo⟩ := dispatchKey_obj v _ hdk
    rcases hoc with ha | hb | ⟨rid, hrc, hroomn⟩
    · simp [handleMessage, hs, htyo, hfal, hdk, ha]
    · simp [handleMessage, hs, htyo, hfal, hdk, hb]
    · cases hsd : s.side with
      | none => simp [handleMessage, hs, htyo, hfal, hdk, hsd]
      | some sd =>
        cases sd <;>
          simp [handleMessage, hs, htyo, hfal, hdk, hsd, hrc, hroomn]
  · intro v hdk hoc
    obtain ⟨hfal, htyo⟩ := dispatchKey_obj v _ hdk
    rcases hoc with ha | hb | ⟨rid, hrc, hrest⟩
    · simp [handleMessage, hs, htyo, hfal, hdk, ha]
    · simp [handleMessage, hs, htyo, hfal, hdk, hb]
    · cases hsd : s.side with
      | none => simp [handleMessage, hs, htyo, hfal, hdk, hsd]
      | some sd =>
        rcases hrest with hroomn | ⟨room, hroomsome, hph⟩
        · cases sd <;>
            simp [handleMessage, hs, htyo, hfal, hdk, hsd, hrc, hroomn]
        · cases sd <;>
            simp [handleMessage, hs, htyo, hfal, hdk, hsd, hrc, hroomsome,
              requestRematch, hph]

/-- C9 witness: concrete frames of each guarded kind at a roomless open
session — all silently dropped except the unknown type, which is
answered with the error reply. -/
theorem handleMessage_guards_witness :
    (handleMessage (fun _ => JSNum.nan) 0 false (fun _ => (false, false))
      c9World 1 Frame.invalid = (c9World, [])) ∧
    (handleMessage (fun _ => JSNum.nan) 0 false (fun _ => (false, false))
      c9World 1 (Frame.parsed JVal.jnull) = (c9World, [])) ∧
    (handleMessage (fun _ => JSNum.nan) 0 false (fun _ => (false, false))
      c9World 1 (Frame.parsed (JVal.jobj (some (JVal.jstr "ping")) none none))
      = (c9World, [(1, OutMsg.errorMsg "Unknown message type")])) ∧
    (handleMessage (fun _ => JSNum.nan) 0 false (fun _ => (false, false))
      c9World 1 (Frame.parsed (JVal.jobj (some (JVal.jstr "paddle")) none none))
      = (c9World, [])) ∧
    (handleMessage (fun _ => JSNum.nan) 0 false (fun _ => (false, false))
      c9World 1 (Frame.parsed (JVal.jobj (some (JVal.jstr "rematchRequest")) none none))
      = (c9World, [])) := by
  have h := handleMessage_guards (fun _ => JSNum.nan) 0 false (fun _ => (false, false))
    c9World 1 ⟨1, "A", none, none, true⟩ rfl
  exact ⟨h.1,
    h.2.1 JVal.jnull (by decide),
    h.2.2.1 (JVal.jobj (some (JVal.jstr "ping")) none none) rfl rfl
      (by intro t ht; simp [dispatchKey] at ht; subst ht; decide) rfl,
    h.2.2.2.1 (JVal.jobj (some (JVal.jstr "paddle")) none none) rfl (Or.inl rfl),
    h.2.2.2.2 (JVal.jobj (some (JVal.jstr "rematchRequest")) none none) rfl (Or.inl rfl)⟩

end Pong
